import Mathlib

/-!
Shallow embedding of the repository's own code (the `preprocessing.py`
feature-engineering script, the `WorkerThread` traffic-generation harness,
the synthetic ground-truth generator, and the notebook-level inventories of
thread starts, exception handlers and SDK calls), together with theorems
settling the specification claims about that code.
-/

namespace Spec2Proof

/-! ## Dataframe model (pandas, as used by `preprocessing.py`)

A dataframe is an ordered list of named columns; rows correspond
positionally across columns.  A column is either numeric (int dtype) or an
object/string column — the two dtypes that occur in
`bank-additional-full.csv` and that `pd.get_dummies` distinguishes. -/

/-- A single cell of a dataframe. -/
inductive Cell where
  | int (x : Int)
  | str (s : String)
deriving DecidableEq, Repr

/-- The data of one column: numeric (int dtype) or object (string dtype). -/
inductive ColData where
  | ints (xs : List Int)
  | strs (xs : List String)
deriving DecidableEq, Repr

/-- Length of a column. -/
def ColData.len : ColData → Nat
  | .ints xs => xs.length
  | .strs xs => xs.length

/-- Cell of a column at row `i` (default-padded out of range). -/
def ColData.cellAt : ColData → Nat → Cell
  | .ints xs, i => .int (xs.getD i 0)
  | .strs xs, i => .str (xs.getD i "")

/-- A dataframe: an ordered association list of named columns. -/
structure DataFrame where
  cols : List (String × ColData)
deriving DecidableEq, Repr

/-- The column labels, in order (`list(df.columns)`). -/
def DataFrame.names (df : DataFrame) : List String :=
  df.cols.map Prod.fst

/-- `df` has exactly `n` rows: every column has length `n`. -/
def DataFrame.Wf (df : DataFrame) (n : Nat) : Prop :=
  ∀ p ∈ df.cols, (Prod.snd p).len = n

/-- The `i`-th row of `df`, as the list of its cells in column order. -/
def DataFrame.rowAt (df : DataFrame) (i : Nat) : List Cell :=
  df.cols.map fun p => p.2.cellAt i

/-- The first `n` rows of `df`, in order. -/
def DataFrame.rowsAt (df : DataFrame) (n : Nat) : List (List Cell) :=
  (List.range n).map df.rowAt

/-- Column lookup by label (`df["c"]`); first match, as in pandas with
unique labels. -/
def DataFrame.lookup (df : DataFrame) (name : String) : Option ColData :=
  List.lookup name df.cols

/-- `df["c"]` when `c` is a numeric column. -/
def DataFrame.getIntCol (df : DataFrame) (name : String) : Option (List Int) :=
  match df.lookup name with
  | some (.ints xs) => some xs
  | _ => none

/-- `df["c"]` when `c` is an object/string column. -/
def DataFrame.getStrCol (df : DataFrame) (name : String) : Option (List String) :=
  match df.lookup name with
  | some (.strs xs) => some xs
  | _ => none

/-- `df["c"] = data`: replace an existing column in place, else append a
new column at the end (pandas column assignment). -/
def DataFrame.setColumn (df : DataFrame) (name : String) (c : ColData) : DataFrame :=
  if df.names.contains name then
    ⟨df.cols.map fun p => if p.1 = name then (name, c) else p⟩
  else
    ⟨df.cols ++ [(name, c)]⟩

/-! ## The `process` helper of `preprocessing.py` -/

/-- The job categories counted as not working:
`df["job"].isin(["student", "retired", "unemployed"])`. -/
def notWorkingJobs : List String := ["student", "retired", "unemployed"]

/-- The five macro-economic columns removed by `process`. -/
def toremove : List String :=
  ["emp.var.rate", "cons.price.idx", "cons.conf.idx", "euribor3m", "nr.employed"]

/-- `(df["pdays"] == 999).astype(int)`. -/
def indicatorPdays (xs : List Int) : List Int :=
  xs.map fun x => if x = 999 then 1 else 0

/-- `df["job"].isin(["student", "retired", "unemployed"]).astype(int)`. -/
def indicatorNotWorking (xs : List String) : List Int :=
  xs.map fun s => if notWorkingJobs.contains s then 1 else 0

/-- `columns = [x for x in columns if x not in toremove]; df = df[columns]`:
keep the columns not listed in `toremove`, in their original order. -/
def dropToremove (df : DataFrame) : DataFrame :=
  ⟨df.cols.filter fun p => !(toremove.contains p.1)⟩

/-- Lexicographic comparison of character lists (code-point order). -/
def charListLe : List Char → List Char → Bool
  | [], _ => true
  | _ :: _, [] => false
  | a :: as, b :: bs => if a = b then charListLe as bs else decide (a < b)

/-- Lexicographic string comparison by code points: the order in which
`pd.get_dummies` sorts the categories of an object column. -/
def strLe (a b : String) : Bool := charListLe a.data b.data

/-- The sorted distinct values of an object column: the categories
`pd.get_dummies` derives for it. -/
def sortedUniques (xs : List String) : List String :=
  List.insertionSort (fun a b => strLe a b = true) xs.dedup

/-- The indicator columns `pd.get_dummies` produces for one object column:
one 0/1 column `name_v` per category `v`, categories in sorted order. -/
def dummyCols (name : String) (xs : List String) : List (String × ColData) :=
  (sortedUniques xs).map fun v =>
    (name ++ "_" ++ v, ColData.ints (xs.map fun s => if s = v then 1 else 0))

/-- `pd.get_dummies(df)`: the numeric columns in their original order,
followed by the dummy columns of each object column in column order. -/
def getDummies (df : DataFrame) : DataFrame :=
  ⟨(df.cols.filter fun p => match p.2 with | .ints _ => true | .strs _ => false) ++
    (df.cols.filterMap fun p => match p.2 with
      | .strs xs => some (p.1, xs)
      | .ints _ => none).flatMap fun q => dummyCols q.1 q.2⟩

/-- `pd.concat([df['y_yes'], df.drop(['y_no', 'y_yes'], axis=1)], axis=1)`:
move the label column `y_yes` to the front and drop `y_no`; fails
(KeyError) when either label is absent. -/
def moveLabelFirst (df : DataFrame) : Option DataFrame :=
  match df.lookup "y_yes", df.lookup "y_no" with
  | some c, some _ =>
      some ⟨("y_yes", c) :: df.cols.filter fun p => !(p.1 == "y_no" || p.1 == "y_yes")⟩
  | _, _ => none

/-- Permute one column by the sampled row order `σ`. -/
def permuteCol (σ : List Nat) : ColData → ColData
  | .ints xs => .ints (σ.map fun i => xs.getD i 0)
  | .strs xs => .strs (σ.map fun i => xs.getD i "")

/-- `df.sample(frac=1).reset_index(drop=True)`: reorder the rows by the
sampled permutation `σ` (the randomness of `sample` is a parameter). -/
def shuffleRows (σ : List Nat) (df : DataFrame) : DataFrame :=
  ⟨df.cols.map fun p => (p.1, permuteCol σ p.2)⟩

/-- The `process` helper of `preprocessing.py`: derive the two indicator
columns, drop the five macro-economic columns, one-hot encode, move the
label first, and shuffle the rows (`σ` is the permutation drawn by
`df.sample(frac=1)`).  `none` models a raised KeyError. -/
def process (σ : List Nat) (df : DataFrame) : Option DataFrame :=
  match df.getIntCol "pdays" with
  | none => none
  | some pdays =>
    let df1 := df.setColumn "no_previous_contact" (.ints (indicatorPdays pdays))
    match df1.getStrCol "job" with
    | none => none
    | some job =>
      let df2 := df1.setColumn "not_working" (.ints (indicatorNotWorking job))
      match moveLabelFirst (getDummies (dropToremove df2)) with
      | none => none
      | some df5 => some (shuffleRows σ df5)

/-! ## The `np.split` in `preprocessing.py`'s `__main__` -/

/-- Rows `[0, k)` of `df`. -/
def takeRows (k : Nat) (df : DataFrame) : DataFrame :=
  ⟨df.cols.map fun p => (p.1, match p.2 with
    | .ints xs => ColData.ints (xs.take k)
    | .strs xs => ColData.strs (xs.take k))⟩

/-- Rows `[k, n)` of `df`. -/
def dropRows (k : Nat) (df : DataFrame) : DataFrame :=
  ⟨df.cols.map fun p => (p.1, match p.2 with
    | .ints xs => ColData.ints (xs.drop k)
    | .strs xs => ColData.strs (xs.drop k))⟩

/-- `np.split(df, [int(.7*len(df)), int(.85*len(df))])`: the three row
sections `df[0:a]`, `df[a:b]`, `df[b:n]` with `a = ⌊0.7·n⌋` and
`b = ⌊0.85·n⌋`. -/
def npSplit3 (df : DataFrame) (n : Nat) : DataFrame × DataFrame × DataFrame :=
  (takeRows (7 * n / 10) df,
   takeRows (85 * n / 100 - 7 * n / 10) (dropRows (7 * n / 10) df),
   dropRows (85 * n / 100) df)

/-! ## Synthetic ground-truth generation (`ground_truth_with_id`,
`upload_ground_truth`)

`random.seed(inference_id)` followed by `random.random()` is modelled by an
abstract seeded generator: a state type `S`, a `seed` function and a `next`
draw returning a rational in place of the float in `[0, 1)`. -/

/-- Abstract model of Python's `random` module: global state `S`, `seed`
resets it from an integer, `next` draws one number and advances it. -/
structure RandomModule (S : Type) where
  seed : Nat → S
  next : S → Rat × S

/-- The record built by `ground_truth_with_id`: exactly the fields of the
ground-truth merge format. -/
structure GroundTruthRecord where
  data : String
  encoding : String
  eventId : String
  eventVersion : String
deriving DecidableEq, Repr

/-- `ground_truth_with_id(inference_id)`: reseed the generator with
`inference_id`, draw once, and build the merge-format record (label `"1"`
with probability 0.7).  Returns the record and the generator state left
behind. -/
def ground_truth_with_id {S : Type} (R : RandomModule S) (_s : S) (inference_id : Nat) :
    GroundTruthRecord × S :=
  let s1 := R.seed inference_id
  let (rand, s2) := R.next s1
  ({ data := if rand < 7 / 10 then "1" else "0",
     encoding := "CSV",
     eventId := toString inference_id,
     eventVersion := "0" }, s2)

/-- `json.dumps` of a ground-truth record, with Python's default
separators and insertion-ordered keys. -/
def dumpsGroundTruth (r : GroundTruthRecord) : String :=
  "\x7b\"groundTruthData\": \x7b\"data\": \"" ++ r.data ++
    "\", \"encoding\": \"" ++ r.encoding ++
    "\"\x7d, \"eventMetadata\": \x7b\"eventId\": \"" ++ r.eventId ++
    "\"\x7d, \"eventVersion\": \"" ++ r.eventVersion ++ "\"\x7d"

/-- `records = [ground_truth_with_id(i) for i in range(180)]`: the list
comprehension threads the generator state through the 180 calls. -/
def groundTruthRecords {S : Type} (R : RandomModule S) (s : S) (n : Nat) :
    List GroundTruthRecord × S :=
  (List.range n).foldl
    (fun acc i =>
      (acc.1 ++ [(ground_truth_with_id R acc.2 i).1],
       (ground_truth_with_id R acc.2 i).2))
    ([], s)

/-- The JSON Lines body uploaded by `upload_ground_truth`:
`"\n".join(json.dumps(r) for r in records)` over 180 records. -/
def uploadGroundTruthBody {S : Type} (R : RandomModule S) (s : S) : String :=
  String.intercalate "\n" (((groundTruthRecords R s 180).1).map dumpsGroundTruth)

/-- The record `ground_truth_with_id` builds, as a function of the seed
alone: the incoming generator state is discarded by `random.seed`. -/
def pureGroundTruth {S : Type} (R : RandomModule S) (id : Nat) : GroundTruthRecord :=
  { data := if (R.next (R.seed id)).1 < 7 / 10 then "1" else "0",
    encoding := "CSV",
    eventId := toString id,
    eventVersion := "0" }

/-! ## The `WorkerThread` harness and `invoke_endpoint` loop

The shared `threading.Event` is modelled by the sequence of values it shows
to successive `is_set()` checks: a function `flag : Nat → Bool` over a
global check counter.  `terminate()` only ever sets the event, so the
observed sequence is monotone.  Each invocation in a trace is tagged with
the value of the check counter when it is issued. -/

/-- One recorded `invoke_endpoint` remote call: the request body, the
`InferenceId`, and the number of `is_set()` checks that preceded it. -/
structure Invocation where
  body : String
  inferenceId : String
  tag : Nat
deriving DecidableEq, Repr

/-- `row.rstrip("\n")`: remove every trailing newline character. -/
def rstripNewline (s : String) : String :=
  String.mk ((s.toList.reverse.dropWhile fun c => c == '\n').reverse)

/-- The body of `invoke_endpoint(terminate_event)`: for each file line,
strip the trailing newline, issue one remote call with `InferenceId`
`str(i)`, sleep, then check the flag and break if it is set.  `k` is the
global check counter, `i` the per-call line counter. -/
def invokeEndpointLoop (flag : Nat → Bool) : List String → Nat → Nat →
    List Invocation × Nat
  | [], _, k => ([], k)
  | row :: rest, i, k =>
      let inv : Invocation := ⟨rstripNewline row, toString i, k⟩
      if flag k then ([inv], k + 1)
      else
        (inv :: (invokeEndpointLoop flag rest (i + 1) (k + 1)).1,
         (invokeEndpointLoop flag rest (i + 1) (k + 1)).2)

/-- `WorkerThread.run`: `while not event.is_set(): do_run(event)`, with
`do_run = invoke_endpoint`.  `fuel` bounds the number of outer iterations
modelled; each outer iteration consumes one check before entering the
inner loop. -/
def workerRun (flag : Nat → Bool) (lines : List String) :
    Nat → Nat → List Invocation × Nat
  | 0, k => ([], k)
  | fuel + 1, k =>
      if flag k then ([], k + 1)
      else
        ((invokeEndpointLoop flag lines 0 (k + 1)).1 ++
           (workerRun flag lines fuel (invokeEndpointLoop flag lines 0 (k + 1)).2).1,
         (workerRun flag lines fuel (invokeEndpointLoop flag lines 0 (k + 1)).2).2)

/-! ## Notebook-level inventories

The remaining claims are about the shape of the notebook code itself:
which threads each notebook starts, which exception handlers exist, and
which SDK calls touch remote lifecycle state.  These inventories enumerate
the relevant statements of each notebook in source order. -/

/-- A thread-related statement in a notebook. -/
inductive ThreadEvent where
  | createWorker (name : String)
  | startThread (name : String)
  | terminateThread (name : String)
deriving DecidableEq, Repr

/-- Thread statements of `part_000` (data-quality monitoring notebook):
one `WorkerThread` running `invoke_endpoint`, terminated in Cleanup. -/
def part000ThreadEvents : List ThreadEvent :=
  [.createWorker "invoke_endpoint_thread",
   .startThread "invoke_endpoint_thread",
   .terminateThread "invoke_endpoint_thread"]

/-- Thread statements of `part_001` (pipelines notebook): none. -/
def part001ThreadEvents : List ThreadEvent := []

/-- Thread statements of `part_002` (model-quality monitoring notebook):
an `invoke_endpoint` worker and a `generate_fake_ground_truth` worker,
both terminated in Cleanup. -/
def part002ThreadEvents : List ThreadEvent :=
  [.createWorker "invoke_endpoint_thread",
   .startThread "invoke_endpoint_thread",
   .createWorker "ground_truth_thread",
   .startThread "ground_truth_thread",
   .terminateThread "invoke_endpoint_thread",
   .terminateThread "ground_truth_thread"]

/-- Thread statements of `sagemaker-data-prep.ipynb`: none. -/
def dataPrepThreadEvents : List ThreadEvent := []

/-- Thread statements of `sagemaker-lineage.ipynb`: none. -/
def lineageThreadEvents : List ThreadEvent := []

/-- Thread statements of `3-deployment.ipynb`: none. -/
def deploymentThreadEvents : List ThreadEvent := []

/-- The six notebooks of the repository with their thread statements. -/
def notebookThreadEvents : List (String × List ThreadEvent) :=
  [("part_000", part000ThreadEvents),
   ("part_001", part001ThreadEvents),
   ("part_002", part002ThreadEvents),
   ("sagemaker-data-prep", dataPrepThreadEvents),
   ("sagemaker-lineage", lineageThreadEvents),
   ("3-deployment", deploymentThreadEvents)]

/-- The names of the worker threads a notebook starts. -/
def startedThreads (evs : List ThreadEvent) : List String :=
  evs.filterMap fun e => match e with
    | .startThread n => some n
    | _ => none

/-! ## Exception-handler inventory and `create_lambda_iam_role` -/

/-- One `try/except` site in the repository's code. -/
structure HandlerSite where
  notebook : String
  operation : String
  /-- the handler names a specific service exception type -/
  catchesSpecificException : Bool
  /-- the handler produces an alternative successful result -/
  substitutesResult : Bool
  /-- the handler re-raises the exception -/
  reraises : Bool
deriving DecidableEq, Repr

/-- Every `try/except` site in the repository: the two (duplicated)
`create_role` blocks of `create_lambda_iam_role` catching
`iam.exceptions.EntityAlreadyExistsException` and returning the existing
role's ARN; the bare `except` around `lambda_function.create()` printing
and continuing; and the two bare `except` fallbacks to `vertex.arn` in the
lineage-query loops. -/
def handlerSites : List HandlerSite :=
  [⟨"part_002", "create_lambda_iam_role.create_role", true, true, false⟩,
   ⟨"part_002", "create_lambda_iam_role.create_role (duplicate block)", true, true, false⟩,
   ⟨"part_002", "lambda_function.create", false, true, false⟩,
   ⟨"sagemaker-lineage", "to_lineage_object (ascendants)", false, true, false⟩,
   ⟨"sagemaker-lineage", "to_lineage_object (descendants)", false, true, false⟩]

/-- A handler performs local recovery in the sense of the spec: it catches
a specific service exception and substitutes an alternative successful
result instead of re-raising. -/
def localRecovery (h : HandlerSite) : Bool :=
  h.catchesSpecificException && h.substitutesResult && !h.reraises

/-- The one service error relevant to `create_lambda_iam_role`. -/
inductive IamError where
  | entityAlreadyExists
deriving DecidableEq, Repr

/-- `iam.create_role(RoleName=role_name, ...)` against an account whose
existing role names are `existing`: raises `EntityAlreadyExistsException`
when the role exists, else returns the new role's ARN. -/
def iamCreateRole (existing : List String) (roleName : String) : Except IamError String :=
  if existing.contains roleName then .error .entityAlreadyExists
  else .ok ("arn:aws:iam::account:role/" ++ roleName)

/-- `iam.get_role(RoleName=role_name)['Role']['Arn']`. -/
def iamGetRoleArn (roleName : String) : String :=
  "arn:aws:iam::account:role/" ++ roleName

/-- `create_lambda_iam_role(role_name)`: try `create_role` (then attach
the two policies); on `EntityAlreadyExistsException`, fall back to
`get_role` and return the existing role's ARN. -/
def create_lambda_iam_role (existing : List String) (roleName : String) :
    Except IamError String :=
  match iamCreateRole existing roleName with
  | .ok arn => .ok arn
  | .error .entityAlreadyExists => .ok (iamGetRoleArn roleName)

/-! ## SDK-call inventory (remote lifecycle state) -/

/-- One SDK/client call in the repository that touches the lifecycle of a
remote entity (job, endpoint, model package, monitoring schedule,
pipeline).  `mutatesLifecycle` is true when the call changes the remote
lifecycle state of an entity (status transition, approval change,
stop/delete, creation or reconfiguration), false when it only reads
(describe/list/poll/wait/query). -/
structure ApiCall where
  notebook : String
  operation : String
  mutatesLifecycle : Bool
deriving DecidableEq, Repr

/-- The lifecycle-relevant SDK calls of the repository, in source order
per notebook. -/
def apiCalls : List ApiCall :=
  [⟨"part_000", "predictor.update_data_capture_config", true⟩,
   ⟨"part_000", "data_quality_monitor.suggest_baseline", true⟩,
   ⟨"part_000", "data_quality_baseline_job.wait", false⟩,
   ⟨"part_000", "data_quality_monitor.create_monitoring_schedule", true⟩,
   ⟨"part_000", "predictor.list_monitors", false⟩,
   ⟨"part_000", "monitor.stop_monitoring_schedule", true⟩,
   ⟨"part_000", "monitor.delete_monitoring_schedule", true⟩,
   ⟨"part_001", "xgb_train.fit (pipeline step args)", true⟩,
   ⟨"part_001", "model.register (pipeline step args)", true⟩,
   ⟨"part_001", "pipeline.upsert", true⟩,
   ⟨"part_001", "pipeline.start", true⟩,
   ⟨"part_001", "execution.wait", false⟩,
   ⟨"part_002", "Experiment.create", true⟩,
   ⟨"part_002", "xgb_train.fit", true⟩,
   ⟨"part_002", "model_quality_monitor.suggest_baseline", true⟩,
   ⟨"part_002", "model_quality_baseline_job.wait", false⟩,
   ⟨"part_002", "model_quality_monitor.create_monitoring_schedule", true⟩,
   ⟨"part_002", "monitor.stop_monitoring_schedule", true⟩,
   ⟨"part_002", "monitor.delete_monitoring_schedule", true⟩,
   ⟨"part_002", "lambda_function.create", true⟩,
   ⟨"part_002", "training_pipeline.upsert", true⟩,
   ⟨"part_002", "deployment_pipeline.upsert", true⟩,
   ⟨"part_002", "sagemaker_client.describe_endpoint (InService poll)", false⟩,
   ⟨"part_002", "estimator.fit", true⟩,
   ⟨"part_002", "tuner.fit", true⟩,
   ⟨"part_002", "sagemaker_client.create_model_package_group", true⟩,
   ⟨"part_002", "best_estimator.register", true⟩,
   ⟨"sagemaker-data-prep", "processor.run", true⟩,
   ⟨"sagemaker-lineage", "LineageQuery.query", false⟩,
   ⟨"3-deployment", "sagemaker_client.update_model_package (ModelApprovalStatus=Approved)", true⟩,
   ⟨"3-deployment", "random_forest_regressor_model.deploy", true⟩,
   ⟨"3-deployment", "query.wait", false⟩]

/-! ## Concrete fixtures used for witness instances -/

/-- A four-row dataframe with the `bank-additional-full.csv` shape. -/
def procTestDf : DataFrame :=
  ⟨[("pdays", ColData.ints [999, 3, 999, 7]),
    ("job", ColData.strs ["student", "admin.", "retired", "admin."]),
    ("euribor3m", ColData.ints [4, 4, 4, 4]),
    ("y", ColData.strs ["yes", "no", "no", "yes"])]⟩

/-- The output of `process [2, 0, 3, 1] procTestDf`. -/
def procTestOut : DataFrame :=
  ⟨[("y_yes", ColData.ints [0, 1, 1, 0]),
    ("pdays", ColData.ints [999, 999, 7, 3]),
    ("no_previous_contact", ColData.ints [1, 1, 0, 0]),
    ("not_working", ColData.ints [1, 1, 0, 0]),
    ("job_admin.", ColData.ints [0, 0, 1, 1]),
    ("job_retired", ColData.ints [1, 0, 0, 0]),
    ("job_student", ColData.ints [0, 1, 0, 0])]⟩

/-- A ten-row single-column dataframe. -/
def splitTestDf : DataFrame :=
  ⟨[("c", ColData.ints [0, 1, 2, 3, 4, 5, 6, 7, 8, 9])]⟩

/-- A cancellation flag that becomes set at the third check. -/
def testFlag : Nat → Bool := fun m => decide (3 ≤ m)

/-- A cancellation flag that is never set. -/
def neverFlag : Nat → Bool := fun _ => false

/-- Two CSV lines as read from `test-samples-no-header.csv`. -/
def testLines : List String := ["1,2,3\n", "4,5,6\n"]

/-- A concrete seeded generator instance. -/
def testRandom : RandomModule Nat :=
  ⟨fun n => n, fun s => (((s % 3 : Nat) : Rat) / 3, s + 1)⟩

/-! ## Helper lemmas -/

theorem lookup_append_of_some {α β : Type} [BEq α] {l₁ l₂ : List (α × β)} {a : α} {b : β}
    (h : List.lookup a l₁ = some b) : List.lookup a (l₁ ++ l₂) = some b := by
  induction l₁ with
  | nil => simp [List.lookup] at h
  | cons p l ih =>
      obtain ⟨k, c⟩ := p
      rw [List.lookup_cons] at h
      rw [List.cons_append, List.lookup_cons]
      cases hk : (a == k) <;> simp only [hk] at h ⊢
      · exact ih h
      · exact h

theorem lookup_eq_of_mem_nodup {α β : Type} [BEq α] [LawfulBEq α] {l : List (α × β)}
    {p : α × β} (hn : (l.map Prod.fst).Nodup) (h : p ∈ l) : List.lookup p.1 l = some p.2 := by
  induction l with
  | nil => cases h
  | cons q l ih =>
      rw [List.map_cons, List.nodup_cons] at hn
      rw [List.lookup_cons]
      rcases List.mem_cons.mp h with rfl | hmem
      · simp
      · have hne : (p.1 == q.1) = false := by
          rw [beq_eq_false_iff_ne]
          intro he
          exact hn.1 (he ▸ List.mem_map.mpr ⟨p, hmem, rfl⟩)
        simp only [hne]
        exact ih hn.2 hmem

theorem mem_of_lookup_eq_some {α β : Type} [BEq α] [LawfulBEq α] {l : List (α × β)}
    {a : α} {b : β} (h : List.lookup a l = some b) : (a, b) ∈ l := by
  induction l with
  | nil => simp [List.lookup] at h
  | cons q l ih =>
      obtain ⟨k, c⟩ := q
      rw [List.lookup_cons] at h
      cases hk : (a == k) <;> simp only [hk] at h
      · exact List.mem_cons_of_mem _ (ih h)
      · obtain rfl := eq_of_beq hk
        obtain rfl : c = b := by simpa using h
        exact List.mem_cons_self _ _

theorem lookup_map_snd {α β : Type} [BEq α] (l : List (α × β)) (f : β → β) (a : α) :
    List.lookup a (l.map fun p => (p.1, f p.2)) = (List.lookup a l).map f := by
  induction l with
  | nil => rfl
  | cons p l ih =>
      obtain ⟨k, c⟩ := p
      rw [List.map_cons, List.lookup_cons, List.lookup_cons]
      cases hk : (a == k) <;> simp only [hk, ih, Option.map_some']

theorem getD_take_of_lt {α : Type} (xs : List α) (k i : Nat) (d : α) (hi : i < k) :
    (xs.take k).getD i d = xs.getD i d := by
  simp [List.getD_eq_getElem?_getD, List.getElem?_take, hi]

theorem getD_drop {α : Type} (xs : List α) (k i : Nat) (d : α) :
    (xs.drop k).getD i d = xs.getD (k + i) d := by
  simp [List.getD_eq_getElem?_getD, List.getElem?_drop]

theorem map_getD_range {α : Type} (xs : List α) (d : α) :
    (List.range xs.length).map (fun i => xs.getD i d) = xs := by
  induction xs with
  | nil => simp
  | cons x l ih =>
      rw [List.length_cons, List.range_succ_eq_map, List.map_cons, List.map_map]
      refine congrArg₂ _ (by simp) ?_
      rw [List.map_congr_left (g := fun i => l.getD i d) fun i _ => by
        simp [Function.comp, List.getD_cons_succ]]
      exact ih

theorem perm_map_getD {σ : List Nat} {n : Nat} {α : Type} (xs : List α) (d : α)
    (hσ : σ.Perm (List.range n)) (hlen : xs.length = n) :
    (σ.map fun i => xs.getD i d).Perm xs := by
  subst hlen
  have h1 := hσ.map fun i => xs.getD i d
  rwa [map_getD_range] at h1

theorem names_shuffleRows (σ : List Nat) (df : DataFrame) :
    (shuffleRows σ df).names = df.names := by
  simp only [DataFrame.names, shuffleRows, List.map_map]
  exact List.map_congr_left fun p _ => rfl

theorem lookup_shuffleRows (σ : List Nat) (df : DataFrame) (a : String) :
    (shuffleRows σ df).lookup a = (df.lookup a).map (permuteCol σ) := by
  simp only [DataFrame.lookup, shuffleRows]
  exact lookup_map_snd df.cols (permuteCol σ) a

theorem wf_takeRows {df : DataFrame} {n : Nat} (h : df.Wf n) {k : Nat} (hk : k ≤ n) :
    (takeRows k df).Wf k := by
  intro p hp
  simp only [takeRows, List.mem_map] at hp
  obtain ⟨q, hq, rfl⟩ := hp
  have hlen := h q hq
  cases h2 : q.2 <;> rw [h2] at hlen <;>
    simp only [ColData.len, h2, List.length_take] at hlen ⊢ <;> omega

theorem wf_dropRows {df : DataFrame} {n : Nat} (h : df.Wf n) (k : Nat) :
    (dropRows k df).Wf (n - k) := by
  intro p hp
  simp only [dropRows, List.mem_map] at hp
  obtain ⟨q, hq, rfl⟩ := hp
  have hlen := h q hq
  cases h2 : q.2 <;> rw [h2] at hlen <;>
    simp only [ColData.len, h2, List.length_drop] at hlen ⊢ <;> omega

theorem rowAt_takeRows (df : DataFrame) {i k : Nat} (hi : i < k) :
    (takeRows k df).rowAt i = df.rowAt i := by
  simp only [DataFrame.rowAt, takeRows, List.map_map]
  refine List.map_congr_left fun p _ => ?_
  cases h2 : p.2 <;>
    simp [Function.comp, ColData.cellAt, h2, List.getD_eq_getElem?_getD,
      List.getElem?_take, hi]

theorem rowAt_dropRows (df : DataFrame) (i k : Nat) :
    (dropRows k df).rowAt i = df.rowAt (k + i) := by
  simp only [DataFrame.rowAt, dropRows, List.map_map]
  refine List.map_congr_left fun p _ => ?_
  cases h2 : p.2 <;> simp [Function.comp, ColData.cellAt, h2, getD_drop]

/-- C9 (implicit).  The three outputs of
`np.split(df, [int(.7*len(df)), int(.85*len(df))])` form a partition of the
rows of the processed dataframe: they have exactly `⌊0.7·n⌋`,
`⌊0.85·n⌋ - ⌊0.7·n⌋` and `n - ⌊0.85·n⌋` rows respectively, and their
concatenation, in order, is exactly the row sequence of the input, so they
are pairwise disjoint row ranges that together contain every row exactly
once. -/
theorem np_split_partition (df : DataFrame) (n : Nat) (hwf : df.Wf n) :
    (npSplit3 df n).1.Wf (7 * n / 10) ∧
    (npSplit3 df n).2.1.Wf (85 * n / 100 - 7 * n / 10) ∧
    (npSplit3 df n).2.2.Wf (n - 85 * n / 100) ∧
    (npSplit3 df n).1.rowsAt (7 * n / 10) ++
      (npSplit3 df n).2.1.rowsAt (85 * n / 100 - 7 * n / 10) ++
      (npSplit3 df n).2.2.rowsAt (n - 85 * n / 100) = df.rowsAt n := by
  have hab : 7 * n / 10 ≤ 85 * n / 100 := by omega
  have hbn : 85 * n / 100 ≤ n := by omega
  have han : 7 * n / 10 ≤ n := by omega
  refine ⟨wf_takeRows hwf han, wf_takeRows (wf_dropRows hwf _) (by omega),
    wf_dropRows hwf _, ?_⟩
  simp only [npSplit3, DataFrame.rowsAt]
  have h1 : (List.range (7 * n / 10)).map (takeRows (7 * n / 10) df).rowAt =
      (List.range (7 * n / 10)).map df.rowAt :=
    List.map_congr_left fun i hi =>
      rowAt_takeRows df (List.mem_range.mp hi)
  have h2 : (List.range (85 * n / 100 - 7 * n / 10)).map
        (takeRows (85 * n / 100 - 7 * n / 10) (dropRows (7 * n / 10) df)).rowAt =
      (List.range (85 * n / 100 - 7 * n / 10)).map (fun i => df.rowAt (7 * n / 10 + i)) :=
    List.map_congr_left fun i hi => by
      rw [rowAt_takeRows _ (List.mem_range.mp hi), rowAt_dropRows]
  have h3 : (List.range (n - 85 * n / 100)).map (dropRows (85 * n / 100) df).rowAt =
      (List.range (n - 85 * n / 100)).map (fun i => df.rowAt (85 * n / 100 + i)) :=
    List.map_congr_left fun i _ => rowAt_dropRows df i _
  rw [h1, h2, h3]
  have hn : n = 7 * n / 10 + ((85 * n / 100 - 7 * n / 10) + (n - 85 * n / 100)) := by omega
  conv_rhs => rw [hn, List.range_add, List.range_add]
  simp only [List.map_append, List.map_map]
  rw [List.append_assoc]
  refine congrArg₂ _ rfl (congrArg₂ _ ?_ ?_)
  · exact List.map_congr_left fun i _ => rfl
  · refine List.map_congr_left fun i _ => ?_
    simp only [Function.comp_apply]
    congr 1
    omega

/-- C8 (implicit).  Whenever `process` returns a dataframe, that dataframe
has `y_yes` as its first column, does not contain `y_no`, and contains
`y_yes` exactly once: the prediction label is always placed in the first
column of the preprocessed output. -/
theorem process_label_first (σ : List Nat) (df out : DataFrame)
    (h : process σ df = some out) :
    out.names.head? = some "y_yes" ∧ "y_no" ∉ out.names ∧ out.names.count "y_yes" = 1 := by
  simp only [process] at h
  split at h
  · cases h
  next pdays hp =>
  split at h
  · cases h
  next job hj =>
  split at h
  · cases h
  next df5 hm =>
  obtain rfl : shuffleRows σ df5 = out := by injection h
  set df4 := getDummies (dropToremove ((df.setColumn "no_previous_contact"
      (.ints (indicatorPdays pdays))).setColumn "not_working"
      (.ints (indicatorNotWorking job)))) with hdf4
  simp only [moveLabelFirst] at hm
  split at hm
  case h_2 => cases hm
  next cyy cyn hyy hyn =>
  obtain rfl : (⟨("y_yes", cyy) ::
      df4.cols.filter fun p => !(p.1 == "y_no" || p.1 == "y_yes")⟩ : DataFrame) = df5 := by
    injection hm
  rw [names_shuffleRows]
  have hnames : (⟨("y_yes", cyy) ::
      df4.cols.filter fun p => !(p.1 == "y_no" || p.1 == "y_yes")⟩ : DataFrame).names =
      "y_yes" :: (df4.cols.filter fun p => !(p.1 == "y_no" || p.1 == "y_yes")).map Prod.fst := rfl
  rw [hnames]
  refine ⟨rfl, ?_, ?_⟩
  · intro hmem
    rcases List.mem_cons.mp hmem with he | hmem
    · exact absurd he (by decide)
    · obtain ⟨p, hp, hfst⟩ := List.mem_map.mp hmem
      have := List.of_mem_filter hp
      rw [hfst] at this
      simp at this
  · rw [List.count_cons_self]
    have hzero : ("y_yes" : String) ∉
        (df4.cols.filter fun p => !(p.1 == "y_no" || p.1 == "y_yes")).map Prod.fst := by
      intro hmem
      obtain ⟨p, hp, hfst⟩ := List.mem_map.mp hmem
      have := List.of_mem_filter hp
      rw [hfst] at this
      simp at this
    rw [List.count_eq_zero.mpr hzero]

/-! ## Lemmas about the worker loops -/

theorem flag_mono_ge {flag : Nat → Bool}
    (hmono : ∀ m, flag m = true → flag (m + 1) = true) {T m : Nat}
    (hT : flag T = true) (h : T ≤ m) : flag m = true := by
  induction m, h using Nat.le_induction with
  | base => exact hT
  | succ n _ ih => exact hmono n ih

theorem invokeEndpointLoop_stopped {flag : Nat → Bool} {k : Nat}
    (hk : flag k = true) (row : String) (rest : List String) (i : Nat) :
    invokeEndpointLoop flag (row :: rest) i k =
      ([⟨rstripNewline row, toString i, k⟩], k + 1) := by
  simp [invokeEndpointLoop, hk]

theorem invokeEndpointLoop_checks (flag : Nat → Bool) :
    ∀ (lines : List String) (i k : Nat),
      (invokeEndpointLoop flag lines i k).2 =
        k + (invokeEndpointLoop flag lines i k).1.length := by
  intro lines
  induction lines with
  | nil => intro i k; simp [invokeEndpointLoop]
  | cons row rest ih =>
      intro i k
      by_cases hk : flag k = true <;> simp [invokeEndpointLoop, hk, ih] <;> omega

theorem invokeEndpointLoop_filter {flag : Nat → Bool} {T : Nat}
    (hmono : ∀ m, flag m = true → flag (m + 1) = true) (hT : flag T = true) :
    ∀ (lines : List String) (i k : Nat),
      (((invokeEndpointLoop flag lines i k).1.filter
          fun inv => decide (T ≤ inv.tag)).length ≤ 1) ∧
      (((invokeEndpointLoop flag lines i k).1.filter
          fun inv => decide (T ≤ inv.tag)) ≠ [] →
        T < (invokeEndpointLoop flag lines i k).2) := by
  intro lines
  induction lines with
  | nil => intro i k; simp [invokeEndpointLoop]
  | cons row rest ih =>
      intro i k
      by_cases hk : flag k = true
      · rw [invokeEndpointLoop_stopped hk]
        by_cases hTk : T ≤ k <;> simp [List.filter, hTk] <;> omega
      · have hkT : ¬ T ≤ k := fun hle => hk (flag_mono_ge hmono hT hle)
        simp only [invokeEndpointLoop, if_neg hk]
        have hfil : (((⟨rstripNewline row, toString i, k⟩ : Invocation) ::
            (invokeEndpointLoop flag rest (i + 1) (k + 1)).1).filter
              fun inv => decide (T ≤ inv.tag)) =
            ((invokeEndpointLoop flag rest (i + 1) (k + 1)).1.filter
              fun inv => decide (T ≤ inv.tag)) := by
          rw [List.filter_cons_of_neg]
          simpa using hkT
        rw [hfil]
        exact ih (i + 1) (k + 1)

theorem workerRun_stopped {flag : Nat → Bool} {k : Nat} (hk : flag k = true)
    (lines : List String) (fuel : Nat) :
    (workerRun flag lines fuel k).1 = [] := by
  cases fuel <;> simp [workerRun, hk]

theorem workerRun_filter {flag : Nat → Bool} {T : Nat} (lines : List String)
    (hmono : ∀ m, flag m = true → flag (m + 1) = true) (hT : flag T = true) :
    ∀ (fuel k : Nat),
      ((workerRun flag lines fuel k).1.filter
        fun inv => decide (T ≤ inv.tag)).length ≤ 1 := by
  intro fuel
  induction fuel with
  | zero => intro k; simp [workerRun]
  | succ fuel ih =>
      intro k
      by_cases hk : flag k = true
      · simp [workerRun, hk]
      · simp only [workerRun, if_neg hk, List.filter_append, List.length_append]
        obtain ⟨h1, h2⟩ := invokeEndpointLoop_filter hmono hT lines 0 (k + 1)
        by_cases hne : ((invokeEndpointLoop flag lines 0 (k + 1)).1.filter
            fun inv => decide (T ≤ inv.tag)) = []
        · rw [hne]
          simpa using ih _
        · have hflag' : flag (invokeEndpointLoop flag lines 0 (k + 1)).2 = true :=
            flag_mono_ge hmono hT (Nat.le_of_lt (h2 hne))
          rw [workerRun_stopped hflag']
          simpa using h1

theorem invokeEndpointLoop_uncancelled {flag : Nat → Bool}
    (hflag : ∀ m, flag m = false) :
    ∀ (lines : List String) (i k : Nat),
      invokeEndpointLoop flag lines i k =
        ((List.range lines.length).map fun j =>
          ⟨rstripNewline (lines.getD j ""), toString (i + j), k + j⟩,
         k + lines.length) := by
  intro lines
  induction lines with
  | nil => intro i k; simp [invokeEndpointLoop]
  | cons row rest ih =>
      intro i k
      rw [invokeEndpointLoop, if_neg (by simp [hflag k])]
      rw [ih (i + 1) (k + 1)]
      rw [List.length_cons, List.range_succ_eq_map, List.map_cons, List.map_map]
      refine Prod.ext ?_ (by simp; omega)
      simp only [List.getD_cons_zero, Nat.add_zero]
      refine congrArg₂ _ rfl ?_
      refine List.map_congr_left fun j _ => ?_
      simp only [Function.comp_apply, List.getD_cons_succ, Invocation.mk.injEq]
      exact ⟨trivial, congrArg toString (by omega), by omega⟩

/-- C4 (explicit).  A run of `invoke_endpoint` during which the
cancellation flag is never set processes the file lines in order: for the
`i`-th line it issues exactly one remote call, whose body is the line with
its trailing newline stripped and whose `InferenceId` is `str(i)`, and it
checks the flag exactly once per line (final check count `k + lines.length`),
each check happening after the call and before the next line. -/
theorem invoke_endpoint_uncancelled (flag : Nat → Bool) (lines : List String) (k : Nat)
    (hflag : ∀ m, flag m = false) :
    (invokeEndpointLoop flag lines 0 k).1 =
      (List.range lines.length).map (fun j =>
        ⟨rstripNewline (lines.getD j ""), toString j, k + j⟩) ∧
    (invokeEndpointLoop flag lines 0 k).2 = k + lines.length := by
  have h := invokeEndpointLoop_uncancelled hflag lines 0 k
  constructor
  · rw [h]
    exact List.map_congr_left fun j _ => by simp
  · rw [h]

/-- C3 (explicit).  Once the shared cancellation event is set — the checks
are monotone and check `T` reads true — the worker performs at most one
further endpoint invocation (at most one invocation in the whole trace is
tagged with a check count `≥ T`) and exits: with the flag set, the outer
`WorkerThread.run` loop produces no invocations at all, and the inner
`invoke_endpoint` loop stops right after the in-flight line.  The flag is
checked exactly once per line iteration inside `invoke_endpoint` (the
check count grows by exactly the number of invocations). -/
theorem worker_thread_cancellation (flag : Nat → Bool) (lines : List String)
    (fuel k T : Nat) (hmono : ∀ m, flag m = true → flag (m + 1) = true)
    (hT : flag T = true) :
    ((workerRun flag lines fuel k).1.filter
        fun inv => decide (T ≤ inv.tag)).length ≤ 1 ∧
    (flag k = true → (workerRun flag lines fuel k).1 = []) ∧
    (∀ (row : String) (rest : List String) (i k₀ : Nat), flag k₀ = true →
      invokeEndpointLoop flag (row :: rest) i k₀ =
        ([⟨rstripNewline row, toString i, k₀⟩], k₀ + 1)) ∧
    (∀ (ls : List String) (i k₀ : Nat),
      (invokeEndpointLoop flag ls i k₀).2 =
        k₀ + (invokeEndpointLoop flag ls i k₀).1.length) :=
  ⟨workerRun_filter lines hmono hT fuel k,
   fun hk => workerRun_stopped hk lines fuel,
   fun row rest i k₀ hk₀ => invokeEndpointLoop_stopped hk₀ row rest i,
   invokeEndpointLoop_checks flag⟩

/-! ## Lemmas about the ground-truth generator -/

theorem ground_truth_with_id_fst {S : Type} (R : RandomModule S) (s : S) (id : Nat) :
    (ground_truth_with_id R s id).1 = pureGroundTruth R id := rfl

theorem groundTruthRecords_fst {S : Type} (R : RandomModule S) (s : S) :
    ∀ n, (groundTruthRecords R s n).1 = (List.range n).map (pureGroundTruth R) := by
  intro n
  induction n with
  | zero => rfl
  | succ n ih =>
      unfold groundTruthRecords at ih ⊢
      rw [List.range_succ, List.foldl_append, List.foldl_cons, List.foldl_nil,
        List.map_append, List.map_cons, List.map_nil]
      dsimp only
      rw [ih, ground_truth_with_id_fst]

/-- C10 (implicit).  `ground_truth_with_id` is deterministic in
`inference_id`: the generator is reseeded with `inference_id` before the
draw, so the record — in particular the synthetic label — is independent
of the generator state left behind by earlier calls, and both the 180
records and the uploaded body are identical across runs. -/
theorem ground_truth_deterministic {S : Type} (R : RandomModule S) (s₁ s₂ : S)
    (id n : Nat) :
    (ground_truth_with_id R s₁ id).1 = (ground_truth_with_id R s₂ id).1 ∧
    (groundTruthRecords R s₁ n).1 = (groundTruthRecords R s₂ n).1 ∧
    uploadGroundTruthBody R s₁ = uploadGroundTruthBody R s₂ := by
  refine ⟨rfl, ?_, ?_⟩
  · rw [groundTruthRecords_fst, groundTruthRecords_fst]
  · unfold uploadGroundTruthBody
    rw [groundTruthRecords_fst, groundTruthRecords_fst]

/-- C2 (explicit).  For every `inference_id`, the record produced by
`ground_truth_with_id` — and uploaded as one JSON line by
`upload_ground_truth` — carries exactly the fields of the ground-truth
merge format: `groundTruthData.data` is `"1"` or `"0"`,
`groundTruthData.encoding` is `"CSV"`, `eventMetadata.eventId` equals
`str(inference_id)`, and `eventVersion` equals `"0"`; for ids below 180
the record is the `id`-th line of the uploaded batch. -/
theorem ground_truth_record_fields {S : Type} (R : RandomModule S) (s : S) (id : Nat) :
    ((ground_truth_with_id R s id).1.data = "1" ∨
      (ground_truth_with_id R s id).1.data = "0") ∧
    (ground_truth_with_id R s id).1.encoding = "CSV" ∧
    (ground_truth_with_id R s id).1.eventId = toString id ∧
    (ground_truth_with_id R s id).1.eventVersion = "0" ∧
    dumpsGroundTruth (ground_truth_with_id R s id).1 =
      "\x7b\"groundTruthData\": \x7b\"data\": \"" ++ (ground_truth_with_id R s id).1.data ++
      "\", \"encoding\": \"CSV\"\x7d, \"eventMetadata\": \x7b\"eventId\": \"" ++
      toString id ++ "\"\x7d, \"eventVersion\": \"0\"\x7d" ∧
    (id < 180 →
      ((groundTruthRecords R s 180).1)[id]? = some (ground_truth_with_id R s id).1) := by
  refine ⟨?_, rfl, rfl, rfl,
    by simp [dumpsGroundTruth, ground_truth_with_id, String.append_assoc], ?_⟩
  · by_cases hc : (R.next (R.seed id)).1 < 7 / 10
    · exact Or.inl (by simp [ground_truth_with_id, hc])
    · exact Or.inr (by simp [ground_truth_with_id, hc])
  · intro hid
    rw [groundTruthRecords_fst, List.getElem?_map, List.getElem?_range hid,
      Option.map_some']
    rfl

/-! ## Thread, handler and SDK-call inventory claims -/

/-- C5 counterexample.  The model-quality monitoring notebook (`part_002`)
starts two background worker threads — `invoke_endpoint_thread` and
`ground_truth_thread` — so it is false that every notebook starts at most
a single background worker thread. -/
theorem single_thread_per_notebook_cex :
    (startedThreads part002ThreadEvents).length = 2 ∧
    ("part_002", part002ThreadEvents) ∈ notebookThreadEvents ∧
    ¬ (∀ nb ∈ notebookThreadEvents, (startedThreads nb.2).length ≤ 1) := by
  refine ⟨rfl, by decide, ?_⟩
  intro h
  have := h ("part_002", part002ThreadEvents) (by decide)
  simp [startedThreads, part002ThreadEvents] at this

/-- C5 amended.  Each notebook starts at most two background
`WorkerThread`s, each of which is created as a `WorkerThread` and later
terminated: `part_000` starts exactly one (traffic generation), `part_002`
starts exactly two (traffic generation and hourly ground-truth
generation), and the remaining notebooks start none. -/
theorem thread_inventory (nb : String × List ThreadEvent)
    (hnb : nb ∈ notebookThreadEvents) :
    (startedThreads nb.2).length ≤ 2 ∧
    (∀ n ∈ startedThreads nb.2,
      ThreadEvent.createWorker n ∈ nb.2 ∧ ThreadEvent.terminateThread n ∈ nb.2) ∧
    (startedThreads part000ThreadEvents).length = 1 ∧
    (startedThreads part002ThreadEvents).length = 2 ∧
    (nb.1 ≠ "part_000" → nb.1 ≠ "part_002" → startedThreads nb.2 = []) := by
  fin_cases hnb <;>
    exact ⟨by decide, by decide, rfl, rfl, by
      intro h1 h2
      first
        | rfl
        | exact absurd rfl h1
        | exact absurd rfl h2⟩

/-- C6 counterexample.  `create_lambda_iam_role` catches the specific
service exception `EntityAlreadyExistsException` raised by `create_role`
for an existing role and substitutes a successful alternative result (the
existing role's ARN from `get_role`) instead of re-raising, so it is false
that no operation performs local recovery. -/
theorem no_local_recovery_cex :
    (∃ h ∈ handlerSites, localRecovery h = true) ∧
    iamCreateRole ["lambda-deploy-role"] "lambda-deploy-role" =
      .error .entityAlreadyExists ∧
    create_lambda_iam_role ["lambda-deploy-role"] "lambda-deploy-role" =
      .ok "arn:aws:iam::account:role/lambda-deploy-role" := by
  refine ⟨⟨⟨"part_002", "create_lambda_iam_role.create_role", true, true, false⟩,
    by decide, rfl⟩, ?_, ?_⟩ <;> rfl

/-- C6 amended.  Failures of SDK/client calls propagate to the notebook
user or are retried, except at the repository's five `try/except` sites:
the (duplicated) `create_lambda_iam_role` block, which catches
`EntityAlreadyExistsException` and returns the existing role's ARN, the
Lambda-creation cell and the two lineage-query loops, which catch any
exception and substitute a fallback result.  In particular
`create_lambda_iam_role` never propagates a creation failure. -/
theorem error_handling_inventory (h : HandlerSite) (hh : h ∈ handlerSites) :
    (localRecovery h = true →
      h.notebook = "part_002" ∧
      (h.operation = "create_lambda_iam_role.create_role" ∨
       h.operation = "create_lambda_iam_role.create_role (duplicate block)")) ∧
    h.substitutesResult = true ∧ h.reraises = false ∧
    (∀ (existing : List String) (roleName : String),
      ∃ arn, create_lambda_iam_role existing roleName = .ok arn) := by
  refine ⟨?_, ?_, ?_, ?_⟩
  · fin_cases hh <;> simp [localRecovery]
  · fin_cases hh <;> rfl
  · fin_cases hh <;> rfl
  · intro existing roleName
    unfold create_lambda_iam_role iamCreateRole
    by_cases hc : existing.contains roleName = true
    · exact ⟨iamGetRoleArn roleName, by rw [if_pos hc]⟩
    · exact ⟨"arn:aws:iam::account:role/" ++ roleName, by rw [if_neg hc]⟩

/-- C7 counterexample.  The repository's code does mutate remote lifecycle
state: `3-deployment.ipynb` sets a model package's approval status to
`Approved` via `update_model_package`, and the monitoring notebooks stop
and delete monitoring schedules, so it is false that lifecycle state is
only read. -/
theorem lifecycle_read_only_cex :
    (⟨"3-deployment",
        "sagemaker_client.update_model_package (ModelApprovalStatus=Approved)",
        true⟩ : ApiCall) ∈ apiCalls ∧
    (⟨"part_000", "monitor.stop_monitoring_schedule", true⟩ : ApiCall) ∈ apiCalls ∧
    (⟨"part_000", "monitor.delete_monitoring_schedule", true⟩ : ApiCall) ∈ apiCalls ∧
    ¬ (∀ c ∈ apiCalls, c.mutatesLifecycle = false) := by
  refine ⟨by decide, by decide, by decide, ?_⟩
  intro h
  have := h ⟨"part_000", "monitor.stop_monitoring_schedule", true⟩ (by decide)
  simp at this

/-- C7 amended.  The repository's code both reads and writes remote
lifecycle state: its writes are the approval-status update
(`update_model_package`), job/experiment/pipeline/model-package/endpoint
creations and starts (`fit`, `suggest_baseline`, `deploy`, `register`,
`create`, `upsert`, `start`, `run`, `update_data_capture_config`,
`create_monitoring_schedule`), and the monitoring-schedule stop/delete;
only its polling and query calls (`wait`, `describe_endpoint`,
`list_monitors`, `LineageQuery.query`) are read-only. -/
theorem lifecycle_call_inventory (c : ApiCall) (hc : c ∈ apiCalls) :
    c.mutatesLifecycle = false ↔
      (c.operation = "data_quality_baseline_job.wait" ∨
       c.operation = "predictor.list_monitors" ∨
       c.operation = "execution.wait" ∨
       c.operation = "model_quality_baseline_job.wait" ∨
       c.operation = "sagemaker_client.describe_endpoint (InService poll)" ∨
       c.operation = "LineageQuery.query" ∨
       c.operation = "query.wait") := by
  fin_cases hc <;> simp

/-! ## Lemmas about the preprocessing pipeline -/

theorem setColumn_of_not_mem {df : DataFrame} {nm : String} (h : nm ∉ df.names)
    (c : ColData) : df.setColumn nm c = ⟨df.cols ++ [(nm, c)]⟩ := by
  unfold DataFrame.setColumn
  rw [if_neg]
  simpa using h

theorem getIntCol_eq {df : DataFrame} {nm : String} {xs : List Int}
    (h : df.lookup nm = some (.ints xs)) : df.getIntCol nm = some xs := by
  unfold DataFrame.getIntCol
  rw [h]

theorem getStrCol_eq {df : DataFrame} {nm : String} {xs : List String}
    (h : df.lookup nm = some (.strs xs)) : df.getStrCol nm = some xs := by
  unfold DataFrame.getStrCol
  rw [h]

theorem mem_sortedUniques {v : String} {xs : List String} :
    v ∈ sortedUniques xs ↔ v ∈ xs := by
  unfold sortedUniques
  rw [(List.perm_insertionSort _ _).mem_iff, List.mem_dedup]

theorem mem_getDummies_ints {d : DataFrame} {nm : String} {zs : List Int}
    (h : (nm, ColData.ints zs) ∈ d.cols) :
    (nm, ColData.ints zs) ∈ (getDummies d).cols := by
  unfold getDummies
  exact List.mem_append_left _ (List.mem_filter.mpr ⟨h, rfl⟩)

theorem mem_getDummies_dummy {d : DataFrame} {nm v : String} {xs : List String}
    (h : (nm, ColData.strs xs) ∈ d.cols) (hv : v ∈ xs) :
    (nm ++ "_" ++ v, ColData.ints (xs.map fun s => if s = v then 1 else 0)) ∈
      (getDummies d).cols := by
  unfold getDummies
  refine List.mem_append_right _ (List.mem_flatMap.mpr ⟨(nm, xs), ?_, ?_⟩)
  · exact List.mem_filterMap.mpr ⟨(nm, ColData.strs xs), h, rfl⟩
  · exact List.mem_map.mpr ⟨v, mem_sortedUniques.mpr hv, rfl⟩

theorem getDummies_cols_cases {d : DataFrame} {p : String × ColData}
    (h : p ∈ (getDummies d).cols) :
    (p ∈ d.cols ∧ ∃ zs, p.2 = ColData.ints zs) ∨
    (∃ nm xs v, (nm, ColData.strs xs) ∈ d.cols ∧ v ∈ xs ∧
      p = (nm ++ "_" ++ v, ColData.ints (xs.map fun s => if s = v then 1 else 0))) := by
  unfold getDummies at h
  rcases List.mem_append.mp h with h | h
  · obtain ⟨hp, hq⟩ := List.mem_filter.mp h
    refine Or.inl ⟨hp, ?_⟩
    cases h2 : p.2 <;> rw [h2] at hq
    · exact ⟨_, rfl⟩
    · cases hq
  · obtain ⟨q, hq, hpq⟩ := List.mem_flatMap.mp h
    obtain ⟨nm, xs⟩ := q
    obtain ⟨v, hv, rfl⟩ := List.mem_map.mp hpq
    obtain ⟨r, hr, hfr⟩ := List.mem_filterMap.mp hq
    obtain ⟨rn, rc⟩ := r
    cases rc with
    | ints zs => simp at hfr
    | strs zs =>
        simp only [Option.some.injEq, Prod.mk.injEq] at hfr
        obtain ⟨rfl, rfl⟩ := hfr
        exact Or.inr ⟨rn, zs, v, hr, mem_sortedUniques.mp hv, rfl⟩

theorem toremove_no_underscore : ∀ c ∈ toremove, ('_' : Char) ∉ c.data := by decide

theorem underscore_mem_data (a b : String) : ('_' : Char) ∈ (a ++ "_" ++ b).data := by
  rw [String.data_append, String.data_append]
  exact List.mem_append_left _
    (List.mem_append_right _ (show ('_' : Char) ∈ ("_" : String).data by decide))

theorem wf_shuffleRows {σ : List Nat} {n : Nat} (hlen : σ.length = n)
    (d : DataFrame) : (shuffleRows σ d).Wf n := by
  intro p hp
  simp only [shuffleRows, List.mem_map] at hp
  obtain ⟨q, _, rfl⟩ := hp
  cases q.2 <;> simp [permuteCol, ColData.len, hlen]

theorem rowAt_shuffleRows {σ : List Nat} {j : Nat} (hj : j < σ.length)
    (d : DataFrame) : (shuffleRows σ d).rowAt j = d.rowAt (σ.getD j 0) := by
  simp only [DataFrame.rowAt, shuffleRows, List.map_map]
  refine List.map_congr_left fun p _ => ?_
  have hσj : σ[j]? = some σ[j] := List.getElem?_eq_getElem hj
  have hgd : σ.getD j 0 = σ[j] := by
    rw [List.getD_eq_getElem?_getD, hσj]
    rfl
  cases h2 : p.2 <;>
    simp [Function.comp, permuteCol, ColData.cellAt, h2,
      List.getD_eq_getElem?_getD, List.getElem?_map, hσj, hgd]

theorem rowsAt_shuffleRows_perm {σ : List Nat} {n : Nat}
    (hσ : σ.Perm (List.range n)) (d : DataFrame) :
    ((shuffleRows σ d).rowsAt n).Perm (d.rowsAt n) := by
  have hlen : σ.length = n := by
    have := hσ.length_eq
    rwa [List.length_range] at this
  unfold DataFrame.rowsAt
  have h1 : (List.range n).map (shuffleRows σ d).rowAt =
      (List.range n).map (fun j => d.rowAt (σ.getD j 0)) :=
    List.map_congr_left fun j hj =>
      rowAt_shuffleRows (hlen ▸ List.mem_range.mp hj) d
  rw [h1]
  have h2 : (List.range n).map (fun j => d.rowAt (σ.getD j 0)) =
      ((List.range n).map (fun j => σ.getD j 0)).map d.rowAt := by
    rw [List.map_map]
    rfl
  have h3 : (List.range n).map (fun j => σ.getD j 0) = σ := by
    rw [← hlen]
    exact map_getD_range σ 0
  rw [h2, h3]
  exact hσ.map d.rowAt

theorem lookup_filter_of_mem_nodup {α β : Type} [BEq α] [LawfulBEq α]
    {l : List (α × β)} {p : α × β} (q : α × β → Bool)
    (hn : (l.map Prod.fst).Nodup) (hp : p ∈ l) (hq : q p = true) :
    List.lookup p.1 (l.filter q) = some p.2 := by
  refine lookup_eq_of_mem_nodup ?_ (List.mem_filter.mpr ⟨hp, hq⟩)
  exact ((List.filter_sublist l).map Prod.fst).nodup hn

theorem lookup_mk (l : List (String × ColData)) (a : String) :
    (DataFrame.mk l).lookup a = List.lookup a l := rfl

theorem lookup_cons_ne {α β : Type} [BEq α] {a k : α} {b : β} {l : List (α × β)}
    (h : (a == k) = false) : List.lookup a ((k, b) :: l) = List.lookup a l := by
  simp [List.lookup_cons, h]

theorem lookup_cons_self {α β : Type} [BEq α] [LawfulBEq α] {a : α} {b : β}
    {l : List (α × β)} : List.lookup a ((a, b) :: l) = some b := by
  simp [List.lookup_cons]

/-- C1 (explicit).  On every input dataframe with the
`bank-additional-full.csv` shape (an integer `pdays` column, string `job`
and `y` columns, unique labels, no pre-existing indicator columns), the
`process` helper of `preprocessing.py` succeeds and: derives the 0/1
indicator columns `no_previous_contact` (`pdays == 999`) and `not_working`
(`job ∈ {student, retired, unemployed}`); drops the five columns
`emp.var.rate`, `cons.price.idx`, `cons.conf.idx`, `euribor3m`,
`nr.employed`; one-hot encodes every categorical column (each surviving
column is numeric, and each category `v` of a string column `nm` yields
the indicator column `nm_v`); shuffles the rows by the sampled permutation
`σ`; and the `np.split` of the result has exactly `⌊0.7·n⌋`, `⌊0.85·n⌋ -
⌊0.7·n⌋` and `n - ⌊0.85·n⌋` rows in train, validation and test. -/
theorem preprocessing_pipeline
    (df : DataFrame) (n : Nat) (σ : List Nat) (ps : List Int) (js ys : List String)
    (hσ : σ.Perm (List.range n))
    (hps : df.lookup "pdays" = some (.ints ps))
    (hjs : df.lookup "job" = some (.strs js))
    (hys : df.lookup "y" = some (.strs ys))
    (hyes : "yes" ∈ ys) (hno : "no" ∈ ys)
    (hnpc : "no_previous_contact" ∉ df.names)
    (hnw : "not_working" ∉ df.names)
    (hnodup : (getDummies (dropToremove ((df.setColumn "no_previous_contact"
        (ColData.ints (indicatorPdays ps))).setColumn "not_working"
        (ColData.ints (indicatorNotWorking js))))).names.Nodup) :
    ∃ pre : DataFrame,
      process σ df = some (shuffleRows σ pre) ∧
      (shuffleRows σ pre).lookup "no_previous_contact" =
        some (.ints (σ.map fun j => (indicatorPdays ps).getD j 0)) ∧
      (shuffleRows σ pre).lookup "not_working" =
        some (.ints (σ.map fun j => (indicatorNotWorking js).getD j 0)) ∧
      (∀ x ∈ indicatorPdays ps, x = 0 ∨ x = 1) ∧
      (∀ x ∈ indicatorNotWorking js, x = 0 ∨ x = 1) ∧
      (∀ c ∈ toremove, c ∉ (shuffleRows σ pre).names) ∧
      (∀ p ∈ (shuffleRows σ pre).cols, ∃ zs, p.2 = ColData.ints zs) ∧
      (∀ (nm v : String) (xs : List String), (nm, ColData.strs xs) ∈ df.cols →
        nm ∉ toremove → v ∈ xs → nm ++ "_" ++ v ≠ "y_no" →
        (shuffleRows σ pre).lookup (nm ++ "_" ++ v) =
          some (.ints (σ.map fun j =>
            (xs.map fun s => if s = v then 1 else 0).getD j 0))) ∧
      (∀ j < n, (shuffleRows σ pre).rowAt j = pre.rowAt (σ.getD j 0)) ∧
      ((shuffleRows σ pre).rowsAt n).Perm (pre.rowsAt n) ∧
      (npSplit3 (shuffleRows σ pre) n).1.Wf (7 * n / 10) ∧
      (npSplit3 (shuffleRows σ pre) n).2.1.Wf (85 * n / 100 - 7 * n / 10) ∧
      (npSplit3 (shuffleRows σ pre) n).2.2.Wf (n - 85 * n / 100) := by
  have hlen : σ.length = n := by
    have := hσ.length_eq
    rwa [List.length_range] at this
  have e1 : df.setColumn "no_previous_contact" (ColData.ints (indicatorPdays ps)) =
      ⟨df.cols ++ [("no_previous_contact", ColData.ints (indicatorPdays ps))]⟩ :=
    setColumn_of_not_mem hnpc _
  have hnw1 : "not_working" ∉
      (⟨df.cols ++ [("no_previous_contact", ColData.ints (indicatorPdays ps))]⟩ :
        DataFrame).names := by
    intro hmem
    simp only [DataFrame.names, List.map_append, List.mem_append] at hmem
    rcases hmem with hmem | hmem
    · exact hnw hmem
    · simp at hmem
  have e2 : (df.setColumn "no_previous_contact"
      (ColData.ints (indicatorPdays ps))).setColumn "not_working"
      (ColData.ints (indicatorNotWorking js)) =
      ⟨df.cols ++ [("no_previous_contact", ColData.ints (indicatorPdays ps)),
                   ("not_working", ColData.ints (indicatorNotWorking js))]⟩ := by
    rw [e1, setColumn_of_not_mem hnw1]
    exact congrArg DataFrame.mk (by simp)
  rw [e2] at hnodup
  set df2 : DataFrame :=
    ⟨df.cols ++ [("no_previous_contact", ColData.ints (indicatorPdays ps)),
                 ("not_working", ColData.ints (indicatorNotWorking js))]⟩ with hdf2
  set df4 : DataFrame := getDummies (dropToremove df2) with hdf4
  have hItr : df.getIntCol "pdays" = some ps := getIntCol_eq hps
  have hJob : (df.setColumn "no_previous_contact"
      (ColData.ints (indicatorPdays ps))).getStrCol "job" = some js := by
    rw [e1]
    exact getStrCol_eq (lookup_append_of_some hjs)
  have hmemNpc : ("no_previous_contact", ColData.ints (indicatorPdays ps)) ∈ df2.cols := by
    rw [hdf2]
    exact List.mem_append_right _ (by simp)
  have hmemNw : ("not_working", ColData.ints (indicatorNotWorking js)) ∈ df2.cols := by
    rw [hdf2]
    exact List.mem_append_right _ (by simp)
  have hmemY : ("y", ColData.strs ys) ∈ df2.cols := by
    rw [hdf2]
    exact List.mem_append_left _ (mem_of_lookup_eq_some hys)
  have hd3Npc : ("no_previous_contact", ColData.ints (indicatorPdays ps)) ∈
      (dropToremove df2).cols :=
    List.mem_filter.mpr ⟨hmemNpc,
      show (!toremove.contains "no_previous_contact") = true by decide⟩
  have hd3Nw : ("not_working", ColData.ints (indicatorNotWorking js)) ∈
      (dropToremove df2).cols :=
    List.mem_filter.mpr ⟨hmemNw,
      show (!toremove.contains "not_working") = true by decide⟩
  have hd3Y : ("y", ColData.strs ys) ∈ (dropToremove df2).cols :=
    List.mem_filter.mpr ⟨hmemY, show (!toremove.contains "y") = true by decide⟩
  have hd4Npc : ("no_previous_contact", ColData.ints (indicatorPdays ps)) ∈ df4.cols := by
    rw [hdf4]
    exact mem_getDummies_ints hd3Npc
  have hd4Nw : ("not_working", ColData.ints (indicatorNotWorking js)) ∈ df4.cols := by
    rw [hdf4]
    exact mem_getDummies_ints hd3Nw
  have hd4Yes : ("y" ++ "_" ++ "yes",
      ColData.ints (ys.map fun s => if s = "yes" then 1 else 0)) ∈ df4.cols := by
    rw [hdf4]
    exact mem_getDummies_dummy hd3Y hyes
  have hd4No : ("y" ++ "_" ++ "no",
      ColData.ints (ys.map fun s => if s = "no" then 1 else 0)) ∈ df4.cols := by
    rw [hdf4]
    exact mem_getDummies_dummy hd3Y hno
  have hlYes : df4.lookup "y_yes" =
      some (ColData.ints (ys.map fun s => if s = "yes" then 1 else 0)) :=
    lookup_eq_of_mem_nodup hnodup hd4Yes
  have hlNo : df4.lookup "y_no" =
      some (ColData.ints (ys.map fun s => if s = "no" then 1 else 0)) :=
    lookup_eq_of_mem_nodup hnodup hd4No
  set pre : DataFrame :=
    ⟨("y_yes", ColData.ints (ys.map fun s => if s = "yes" then 1 else 0)) ::
      df4.cols.filter fun p => !(p.1 == "y_no" || p.1 == "y_yes")⟩ with hpre
  have hmove : moveLabelFirst df4 = some pre := by
    unfold moveLabelFirst
    rw [hlYes, hlNo]
  have hproc : process σ df = some (shuffleRows σ pre) := by
    unfold process
    rw [hItr]
    dsimp only
    rw [hJob]
    dsimp only
    rw [e2, ← hdf4, hmove]
  have hwfout : (shuffleRows σ pre).Wf n := wf_shuffleRows hlen pre
  have hpreNpc : pre.lookup "no_previous_contact" =
      some (ColData.ints (indicatorPdays ps)) := by
    rw [hpre, lookup_mk, lookup_cons_ne (by decide)]
    exact lookup_filter_of_mem_nodup _ hnodup hd4Npc
      (show (!(("no_previous_contact" : String) == "y_no" ||
        ("no_previous_contact" : String) == "y_yes")) = true by decide)
  have hpreNw : pre.lookup "not_working" =
      some (ColData.ints (indicatorNotWorking js)) := by
    rw [hpre, lookup_mk, lookup_cons_ne (by decide)]
    exact lookup_filter_of_mem_nodup _ hnodup hd4Nw
      (show (!(("not_working" : String) == "y_no" ||
        ("not_working" : String) == "y_yes")) = true by decide)
  refine ⟨pre, hproc, ?_, ?_, ?_, ?_, ?_, ?_, ?_, ?_, ?_, ?_, ?_, ?_⟩
  · rw [lookup_shuffleRows, hpreNpc]
    rfl
  · rw [lookup_shuffleRows, hpreNw]
    rfl
  · intro x hx
    obtain ⟨a, _, rfl⟩ := List.mem_map.mp hx
    by_cases h : a = 999
    · exact Or.inr (by simp [h])
    · exact Or.inl (by simp [h])
  · intro x hx
    obtain ⟨a, _, rfl⟩ := List.mem_map.mp hx
    by_cases h : notWorkingJobs.contains a = true
    · exact Or.inr (by rw [if_pos h])
    · exact Or.inl (by rw [if_neg h])
  · intro c hc hmem
    rw [names_shuffleRows] at hmem
    have hmem' : c ∈ "y_yes" ::
        (df4.cols.filter fun p => !(p.1 == "y_no" || p.1 == "y_yes")).map Prod.fst := hmem
    rcases List.mem_cons.mp hmem' with rfl | hmem2
    · exact absurd hc (by decide)
    · obtain ⟨p, hpf, rfl⟩ := List.mem_map.mp hmem2
      have hp4 : p ∈ df4.cols := List.mem_of_mem_filter hpf
      rcases getDummies_cols_cases (hdf4 ▸ hp4) with ⟨hp3, _⟩ | ⟨nm, xs, v, _, _, heq⟩
      · have hq := List.of_mem_filter hp3
        rw [Bool.not_eq_true'] at hq
        have hcontains : toremove.contains p.1 = true := by simpa using hc
        rw [hq] at hcontains
        cases hcontains
      · have hund := toremove_no_underscore _ hc
        rw [heq] at hund
        exact hund (underscore_mem_data nm v)
  · have hpreints : ∀ q ∈ pre.cols, ∃ zs, q.2 = ColData.ints zs := by
      rw [hpre]
      intro q hq
      rcases List.mem_cons.mp hq with rfl | hq2
      · exact ⟨_, rfl⟩
      · have hq4 : q ∈ df4.cols := List.mem_of_mem_filter hq2
        rcases getDummies_cols_cases (hdf4 ▸ hq4) with ⟨_, hint⟩ | ⟨nm, xs, v, _, _, heq⟩
        · exact hint
        · exact ⟨_, by rw [heq]⟩
    intro p hp
    simp only [shuffleRows, List.mem_map] at hp
    obtain ⟨q, hq, rfl⟩ := hp
    obtain ⟨zs, hzs⟩ := hpreints q hq
    exact ⟨σ.map fun i => zs.getD i 0, by rw [hzs]; rfl⟩
  · intro nm v xs hmemcol hnotrm hvx hneq
    rw [lookup_shuffleRows]
    have hd2 : (nm, ColData.strs xs) ∈ df2.cols := by
      rw [hdf2]
      exact List.mem_append_left _ hmemcol
    have hd3 : (nm, ColData.strs xs) ∈ (dropToremove df2).cols :=
      List.mem_filter.mpr ⟨hd2, by
        rw [Bool.not_eq_true']
        simpa using hnotrm⟩
    have hd4 : (nm ++ "_" ++ v,
        ColData.ints (xs.map fun s => if s = v then 1 else 0)) ∈ df4.cols := by
      rw [hdf4]
      exact mem_getDummies_dummy hd3 hvx
    by_cases hyy : nm ++ "_" ++ v = "y_yes"
    · have h1 := lookup_eq_of_mem_nodup hnodup hd4
      rw [hyy] at h1
      have h2 : ColData.ints (ys.map fun s => if s = "yes" then 1 else 0) =
          ColData.ints (xs.map fun s => if s = v then 1 else 0) := by
        have h3 := hlYes.symm.trans h1
        injection h3
      rw [hyy, hpre, lookup_mk, lookup_cons_self, h2]
      rfl
    · have hfil : List.lookup (nm ++ "_" ++ v)
          (df4.cols.filter fun p => !(p.1 == "y_no" || p.1 == "y_yes")) =
          some (ColData.ints (xs.map fun s => if s = v then 1 else 0)) :=
        lookup_filter_of_mem_nodup _ hnodup hd4 (by
          simp [beq_eq_false_iff_ne.mpr hneq, beq_eq_false_iff_ne.mpr hyy])
      rw [hpre, lookup_mk, lookup_cons_ne (beq_eq_false_iff_ne.mpr hyy), hfil]
      rfl
  · intro j hj
    exact rowAt_shuffleRows (by rwa [hlen]) pre
  · exact rowsAt_shuffleRows_perm hσ pre
  · exact wf_takeRows hwfout (by omega)
  · exact wf_takeRows (wf_dropRows hwfout _) (by omega)
  · exact wf_dropRows hwfout _

/-! ## Witness instances -/

/-- Witness for C1 at a concrete four-row dataframe and permutation. -/
theorem preprocessing_pipeline_witness :
    ∃ pre : DataFrame,
      process [2, 0, 3, 1] procTestDf = some (shuffleRows [2, 0, 3, 1] pre) ∧
      (shuffleRows [2, 0, 3, 1] pre).lookup "no_previous_contact" =
        some (.ints ([2, 0, 3, 1].map fun j =>
          (indicatorPdays [999, 3, 999, 7]).getD j 0)) ∧
      (∀ c ∈ toremove, c ∉ (shuffleRows [2, 0, 3, 1] pre).names) := by
  obtain ⟨pre, h1, h2, _, _, _, h6, _, _, _, _, _, _, _⟩ :=
    preprocessing_pipeline procTestDf 4 [2, 0, 3, 1] [999, 3, 999, 7]
      ["student", "admin.", "retired", "admin."] ["yes", "no", "no", "yes"]
      (by decide) (by decide) (by decide) (by decide) (by decide) (by decide)
      (by decide) (by decide) (by decide)
  exact ⟨pre, h1, h2, h6⟩

/-- Witness for C2 at a concrete generator and `inference_id = 5`. -/
theorem ground_truth_record_fields_witness :
    (5 : Nat) < 180 ∧
    ((groundTruthRecords testRandom 0 180).1)[5]? =
      some (ground_truth_with_id testRandom 0 5).1 :=
  ⟨by decide, (ground_truth_record_fields testRandom 0 5).2.2.2.2.2 (by decide)⟩

/-- Witness for C3: flag set at check 3, fuel 5. -/
theorem worker_thread_cancellation_witness :
    ((workerRun testFlag testLines 5 0).1.filter
      fun inv => decide (3 ≤ inv.tag)).length ≤ 1 :=
  (worker_thread_cancellation testFlag testLines 5 0 3
    (fun m h => by
      simp only [testFlag, decide_eq_true_eq] at h ⊢
      omega)
    (by decide)).1

/-- Witness for C4: a never-set flag over two concrete lines. -/
theorem invoke_endpoint_uncancelled_witness :
    (invokeEndpointLoop neverFlag testLines 0 0).1 =
      (List.range testLines.length).map (fun j =>
        ⟨rstripNewline (testLines.getD j ""), toString j, 0 + j⟩) ∧
    (invokeEndpointLoop neverFlag testLines 0 0).2 = 0 + testLines.length :=
  invoke_endpoint_uncancelled neverFlag testLines 0 (fun _ => rfl)

/-- Witness for the amended C5 at the `part_002` notebook. -/
theorem thread_inventory_witness :
    (startedThreads part002ThreadEvents).length ≤ 2 :=
  (thread_inventory ("part_002", part002ThreadEvents) (by decide)).1

/-- Witness for the amended C6 at the Lambda-creation handler site. -/
theorem error_handling_inventory_witness :
    ∃ arn, create_lambda_iam_role ["existing-role"] "lambda-role" = .ok arn :=
  (error_handling_inventory ⟨"part_002", "lambda_function.create", false, true, false⟩
    (by decide)).2.2.2 ["existing-role"] "lambda-role"

/-- Witness for the amended C7 at the `query.wait` call. -/
theorem lifecycle_call_inventory_witness :
    (⟨"3-deployment", "query.wait", false⟩ : ApiCall).mutatesLifecycle = false :=
  (lifecycle_call_inventory ⟨"3-deployment", "query.wait", false⟩ (by decide)).mpr
    (by decide)

/-- Witness for C8 at a concrete dataframe whose processing succeeds. -/
theorem process_label_first_witness :
    process [2, 0, 3, 1] procTestDf = some procTestOut ∧
    procTestOut.names.head? = some "y_yes" ∧ "y_no" ∉ procTestOut.names ∧
    procTestOut.names.count "y_yes" = 1 :=
  ⟨by decide, process_label_first [2, 0, 3, 1] procTestDf procTestOut (by decide)⟩

/-- Witness for C9 at a concrete ten-row dataframe. -/
theorem np_split_partition_witness :
    (npSplit3 splitTestDf 10).1.Wf (7 * 10 / 10) ∧
    (npSplit3 splitTestDf 10).2.1.Wf (85 * 10 / 100 - 7 * 10 / 10) ∧
    (npSplit3 splitTestDf 10).2.2.Wf (10 - 85 * 10 / 100) ∧
    (npSplit3 splitTestDf 10).1.rowsAt (7 * 10 / 10) ++
      (npSplit3 splitTestDf 10).2.1.rowsAt (85 * 10 / 100 - 7 * 10 / 10) ++
      (npSplit3 splitTestDf 10).2.2.rowsAt (10 - 85 * 10 / 100) =
      splitTestDf.rowsAt 10 :=
  np_split_partition splitTestDf 10
    (show ∀ p ∈ splitTestDf.cols, (Prod.snd p).len = 10 by decide)

end Spec2Proof
